import Mathlib

/-!
Verification of the request-logger repository (`joonasvir/request-logger`).

The repository stores logged HTTP submissions in an in-memory, capped,
newest-first list and serves them through one API route
(`src/app/api/log/route.ts`, handlers `POST`/`GET`/`DELETE`, with
`PUT`/`PATCH` delegating to `POST`).

Two layers are embedded below.

* `RouteSrc` is a direct shallow embedding of the code present in
  `src/app/api/log/route.ts`: the `LoggedRequest` record, `getIpAddress`,
  the `POST` append (unshift + truncate), the `GET` handler with its
  `method` filter (`req.method === methodFilter.toUpperCase()`) and its
  free-text filter (`JSON.stringify(req).toLowerCase().includes(query
  .toLowerCase())`), and the `DELETE` handler.

* `StoreSpec` models the activity-log store of the current application,
  whose route implementation is not included under `src/` (only an
  outdated iteration of `route.ts`, the README documentation, the
  dashboards that call it, and the `LoggedRequest` interface declarations
  are present).  Its definitions are modelled from the spec, as marked in
  their doc comments.

JavaScript string primitives (`includes`, `toLowerCase`, `toUpperCase`,
`split(',')[0]`) and `JSON.stringify` are modelled on `List Char` so that
every definition reduces inside the kernel.  `JSON.stringify`'s string
escaping is modelled for the double quote, backslash, newline, carriage
return and tab; other control characters are not modelled.
-/

namespace RequestLogger

/-- JSON-like values, as produced by `await request.json()`. -/
inductive Json where
  | null : Json
  | bool : Bool → Json
  | num : Int → Json
  | str : String → Json
  | arr : List Json → Json
  | obj : List (String × Json) → Json

/-- Whether a decoded value is a structured JSON object. -/
def Json.isObj : Json → Bool
  | .obj _ => true
  | _ => false

/-- The keys of a JSON object (empty for non-objects). -/
def Json.keys : Json → List String
  | .obj fs => fs.map (fun f => f.1)
  | _ => []

/-- Key-presence test (`key in body` / `body.key !== undefined` on an
object); false on every non-object. -/
def Json.hasKey (j : Json) (k : String) : Bool :=
  match j with
  | .obj fs => fs.any (fun f => f.1 == k)
  | _ => false

/-- Field lookup on a JSON object (`body.key`), `none` when the key is
absent or the value is not an object. -/
def Json.get? (j : Json) (k : String) : Option Json :=
  match j with
  | .obj fs => (fs.find? (fun f => f.1 == k)).map (fun f => f.2)
  | _ => none

/-! ### JavaScript string operations, modelled on `List Char` -/

/-- `s.toLowerCase()` of a string, as a character list. -/
def lowerData (s : String) : List Char := s.data.map Char.toLower

/-- `s.toUpperCase()`. -/
def jsToUpper (s : String) : String := ⟨s.data.map Char.toUpper⟩

/-- Decision procedure for "nd is a prefix of hay". -/
def isPre : List Char → List Char → Bool
  | [], _ => true
  | _ :: _, [] => false
  | a :: as, b :: bs => a == b && isPre as bs

/-- Decision procedure for `hay.includes(nd)` (substring test). -/
def isSubstr (nd : List Char) : List Char → Bool
  | [] => nd.isEmpty
  | b :: bs => isPre nd (b :: bs) || isSubstr nd bs

/-- "nd occurs as a contiguous substring of hay". -/
def SubStr (nd hay : List Char) : Prop := ∃ u v, u ++ nd ++ v = hay

/-- JSON.stringify escaping of one character (double quote, backslash,
newline, carriage return, tab; other characters kept verbatim). -/
def escapeChar (c : Char) : List Char :=
  if c = '"' then ['\\', '"']
  else if c = '\\' then ['\\', '\\']
  else if c = '\n' then ['\\', 'n']
  else if c = '\r' then ['\\', 'r']
  else if c = '\t' then ['\\', 't']
  else [c]

/-- JSON.stringify escaping of a character sequence. -/
def escapeData (cs : List Char) : List Char := cs.flatMap escapeChar

/-- A JSON string literal: `"` ++ escaped contents ++ `"`. -/
def quoteData (cs : List Char) : List Char := ['"'] ++ escapeData cs ++ ['"']

mutual
/-- `JSON.stringify` of a JSON value, as a character list. -/
def Json.serializeData : Json → List Char
  | .null => "null".data
  | .bool true => "true".data
  | .bool false => "false".data
  | .num n => (toString n).data
  | .str s => quoteData s.data
  | .arr xs => ['['] ++ Json.serializeListData xs ++ [']']
  | .obj fs => ['\x7b'] ++ Json.serializeFieldsData fs ++ ['\x7d']

/-- Comma-separated serialization of an array's elements. -/
def Json.serializeListData : List Json → List Char
  | [] => []
  | [x] => Json.serializeData x
  | x :: y :: rest =>
      Json.serializeData x ++ [','] ++ Json.serializeListData (y :: rest)

/-- Comma-separated serialization of an object's fields. -/
def Json.serializeFieldsData : List (String × Json) → List Char
  | [] => []
  | [f] => quoteData f.1.data ++ [':'] ++ Json.serializeData f.2
  | f :: g :: rest =>
      quoteData f.1.data ++ [':'] ++ Json.serializeData f.2 ++ [','] ++
        Json.serializeFieldsData (g :: rest)
end

/-! ### Embedding of `src/app/api/log/route.ts` -/

namespace RouteSrc

/-- The parts of a `NextRequest` read by the handlers: verb, URL, headers,
and the decoded JSON body (`none` when `request.json()` rejected, matching
`.catch(() => null)`). -/
structure NextRequest where
  method : String
  url : String
  headers : List (String × String)
  jsonBody : Option Json

/-- `request.headers.get(name)`. -/
def headerGet (hs : List (String × String)) (k : String) : Option String :=
  (hs.find? (fun h => h.1 == k)).map (fun h => h.2)

/-- `s.split(',')[0]`: the segment before the first comma. -/
def beforeComma (s : String) : String := ⟨s.data.takeWhile (fun c => c != ',')⟩

/-- JavaScript `a || b || c || 'unknown'` over optional strings, where the
empty string is falsy. -/
def firstTruthy : List (Option String) → String → String
  | [], d => d
  | none :: rest, d => firstTruthy rest d
  | some s :: rest, d => if s = "" then firstTruthy rest d else s

/-- `getIpAddress` from route.ts: first truthy of
`x-forwarded-for.split(',')[0]`, `x-real-ip`, `cf-connecting-ip`,
defaulting to `"unknown"`. -/
def getIpAddress (req : NextRequest) : String :=
  firstTruthy
    [(headerGet req.headers "x-forwarded-for").map beforeComma,
     headerGet req.headers "x-real-ip",
     headerGet req.headers "cf-connecting-ip"] "unknown"

/-- The `LoggedRequest` record stored by route.ts. -/
structure LoggedRequest where
  id : String
  method : String
  headers : List (String × String)
  body : Json
  timestamp : String
  ip : String
  url : String

/-- The `loggedRequest` object literal built inside `POST`; `freshId` and
`ts` stand for `generateId()` and `new Date().toISOString()`. -/
def mkLoggedRequest (req : NextRequest) (freshId ts : String) : LoggedRequest :=
  { id := freshId
    method := req.method
    headers := req.headers
    body := req.jsonBody.getD Json.null
    timestamp := ts
    ip := getIpAddress req
    url := req.url }

/-- The body of the 201 response of `POST` in route.ts. -/
structure PostResponse where
  status : Nat
  success : Bool
  id : String
  timestamp : String

/-- `POST /api/log`: build the record, `unshift` it, truncate the log to
100 entries when it exceeds 100, and answer 201. -/
def POST (log : List LoggedRequest) (req : NextRequest) (freshId ts : String) :
    List LoggedRequest × PostResponse :=
  let e := mkLoggedRequest req freshId ts
  let log' := e :: log
  let log'' := if log'.length > 100 then log'.take 100 else log'
  (log'', { status := 201, success := true, id := e.id, timestamp := e.timestamp })

/-- One `"key":<value>` chunk of a stringified object. -/
def fieldChunk (key : String) (v : List Char) : List Char :=
  quoteData key.data ++ [':'] ++ v

/-- `JSON.stringify` of a `Record<string, string>` body (without the
surrounding braces). -/
def headerPairsData : List (String × String) → List Char
  | [] => []
  | [h] => fieldChunk h.1 (quoteData h.2.data)
  | h :: h' :: rest =>
      fieldChunk h.1 (quoteData h.2.data) ++ [','] ++ headerPairsData (h' :: rest)

/-- `JSON.stringify(req)` for a stored `LoggedRequest`, with the fields in
their construction order. -/
def LoggedRequest.serializeData (r : LoggedRequest) : List Char :=
  ['\x7b'] ++ fieldChunk "id" (quoteData r.id.data)
  ++ [','] ++ fieldChunk "method" (quoteData r.method.data)
  ++ [','] ++ fieldChunk "headers" (['\x7b'] ++ headerPairsData r.headers ++ ['\x7d'])
  ++ [','] ++ fieldChunk "body" (Json.serializeData r.body)
  ++ [','] ++ fieldChunk "timestamp" (quoteData r.timestamp.data)
  ++ [','] ++ fieldChunk "ip" (quoteData r.ip.data)
  ++ [','] ++ fieldChunk "url" (quoteData r.url.data)
  ++ ['\x7d']

/-- The `method` filter step of `GET`: skipped when the parameter is
absent or empty (falsy), otherwise keeps requests with
`req.method === methodFilter.toUpperCase()`. -/
def methodFilterStep (mf : Option String) (l : List LoggedRequest) :
    List LoggedRequest :=
  match mf with
  | none => l
  | some f =>
      if f = "" then l else l.filter (fun r => r.method == jsToUpper f)

/-- The `search` filter step of `GET`: skipped when the parameter is
absent or empty, otherwise keeps requests with
`JSON.stringify(req).toLowerCase().includes(query.toLowerCase())`. -/
def searchFilterStep (sq : Option String) (l : List LoggedRequest) :
    List LoggedRequest :=
  match sq with
  | none => l
  | some q =>
      if q = "" then l
      else l.filter (fun r =>
        isSubstr (lowerData q) (r.serializeData.map Char.toLower))

/-- The body of the `GET` response: `{requests, total}`. -/
structure GetResponse where
  requests : List LoggedRequest
  total : Nat

/-- `GET /api/log?method=&search=`: copy the log, apply the two filter
steps, return the filtered list with its length. -/
def GET (log : List LoggedRequest) (mf sq : Option String) : GetResponse :=
  let filtered := searchFilterStep sq (methodFilterStep mf log)
  { requests := filtered, total := filtered.length }

/-- The body of the `DELETE` response: `{success, cleared}`. -/
structure DeleteResponse where
  success : Bool
  cleared : Nat

/-- `DELETE /api/log`: record the count, empty the log. -/
def DELETE (log : List LoggedRequest) : List LoggedRequest × DeleteResponse :=
  ([], { success := true, cleared := log.length })

/-- `PUT /api/log` delegates to `POST`. -/
def PUT := POST

/-- `PATCH /api/log` delegates to `POST`. -/
def PATCH := POST

end RouteSrc

/-! ### The activity-log store of the current application

The current route implementation (classification flags, capacity 300,
fourteen query filters) is code of this repository that is not under
`src/`: only an outdated iteration of `route.ts`, the README that
documents it, the `LoggedRequest` interface declarations and the
dashboard pages that call it are present.  The definitions in this
namespace are therefore modelled from the spec (§3, §4.1, §6), using the
concrete JSON key names fixed by the README and the interface
declarations. -/

namespace StoreSpec

/-- Modelled from the spec: the fixed capacity bound of the store
(`CAPACITY = 300`). -/
def CAPACITY : Nat := 300

/-- Modelled from the spec: the email-shaped keys {subject, body text,
from-address, to-addresses, email-kind}, under their concrete names. -/
def emailKeys : List String :=
  ["emailSubject", "emailBody", "emailFrom", "emailTo", "emailType"]

/-- Modelled from the spec: the scraper-shaped keys {source name, scraper
status, article URL, scraped-at, content-kind}, under their concrete
names. -/
def scraperKeys : List String :=
  ["source", "scraperStatus", "articleUrl", "scrapedAt", "contentType"]

/-- Modelled from the spec: `isEmailShaped` = the raw body is a
structured object and at least one email key is present (key presence,
not value truthiness). -/
def isEmailShaped (rawBody : Json) : Bool :=
  emailKeys.any (fun k => rawBody.hasKey k)

/-- Modelled from the spec: `isScraperShaped` = the raw body is a
structured object and at least one scraper key is present. -/
def isScraperShaped (rawBody : Json) : Bool :=
  scraperKeys.any (fun k => rawBody.hasKey k)

/-- Modelled from the spec: a `LoggedEvent` — identity and transport
metadata, the opaque raw body, the optional classification and
sender/recipient identity fields copied from it, and the two frozen
classification flags. -/
structure LoggedEvent where
  id : String
  receivedAt : String
  method : String
  clientAddress : String
  requestUrl : String
  headers : List (String × String)
  rawBody : Json
  emailSubject : Option Json
  emailBody : Option Json
  emailFrom : Option Json
  emailTo : Option Json
  emailType : Option Json
  source : Option Json
  scraperStatus : Option Json
  articleUrl : Option Json
  scrapedAt : Option Json
  contentType : Option Json
  senderName : Option Json
  senderId : Option Json
  sessionId : Option Json
  deviceInfo : Option Json
  recipientName : Option Json
  recipientId : Option Json
  recipientEmail : Option Json
  isEmailShaped : Bool
  isScraperShaped : Bool

/-- The arguments of one `append` call; `freshId` and `receivedAt` stand
for the id and timestamp the adapter generates at insertion time. -/
structure AppendInput where
  rawBody : Json := Json.null
  method : String := "POST"
  headers : List (String × String) := []
  clientAddress : String := "unknown"
  requestUrl : String := "/api/log"
  freshId : String := "0-x"
  receivedAt : String := "1970-01-01T00:00:00.000Z"

/-- Modelled from the spec: construction of the stored event — classify
the payload, copy email fields when either shape matched, copy scraper
fields (with the `scraperStatus`/`scrapedAt`/`contentType` defaults) when
scraper-shaped, copy identity fields unconditionally, freeze the flags. -/
def mkEvent (i : AppendInput) : LoggedEvent :=
  let isE := isEmailShaped i.rawBody
  let isS := isScraperShaped i.rawBody
  { id := i.freshId
    receivedAt := i.receivedAt
    method := i.method
    clientAddress := i.clientAddress
    requestUrl := i.requestUrl
    headers := i.headers
    rawBody := i.rawBody
    emailSubject := if isE || isS then i.rawBody.get? "emailSubject" else none
    emailBody := if isE || isS then i.rawBody.get? "emailBody" else none
    emailFrom := if isE || isS then i.rawBody.get? "emailFrom" else none
    emailTo := if isE || isS then i.rawBody.get? "emailTo" else none
    emailType := if isE || isS then i.rawBody.get? "emailType" else none
    source := if isS then i.rawBody.get? "source" else none
    scraperStatus :=
      if isS then some ((i.rawBody.get? "scraperStatus").getD (Json.str "success"))
      else none
    articleUrl := if isS then i.rawBody.get? "articleUrl" else none
    scrapedAt :=
      if isS then some ((i.rawBody.get? "scrapedAt").getD (Json.str i.receivedAt))
      else none
    contentType :=
      if isS then some ((i.rawBody.get? "contentType").getD (Json.str "article"))
      else none
    senderName := i.rawBody.get? "senderName"
    senderId := i.rawBody.get? "senderId"
    sessionId := i.rawBody.get? "sessionId"
    deviceInfo := i.rawBody.get? "deviceInfo"
    recipientName := i.rawBody.get? "recipientName"
    recipientId := i.rawBody.get? "recipientId"
    recipientEmail := i.rawBody.get? "recipientEmail"
    isEmailShaped := isE
    isScraperShaped := isS }

/-- Modelled from the spec: `append` — insert the constructed event at
the front and truncate from the tail to `CAPACITY`; returns the event.
Total: no input is rejected. -/
def append (store : List LoggedEvent) (i : AppendInput) :
    List LoggedEvent × LoggedEvent :=
  let e := mkEvent i
  ((e :: store).take CAPACITY, e)

/-- A sequence of appends, oldest call first. -/
def appendAll (store : List LoggedEvent) (is : List AppendInput) :
    List LoggedEvent :=
  is.foldl (fun s i => (append s i).1) store

/-- Modelled from the spec (§6): the parsed filter specification; each of
the fourteen recognized query parameters is optional. -/
structure Filter where
  method : Option String := none
  search : Option String := none
  emailType : Option String := none
  isEmail : Option Bool := none
  isScraper : Option Bool := none
  source : Option String := none
  status : Option String := none
  contentType : Option String := none
  senderId : Option String := none
  sessionId : Option String := none
  senderName : Option String := none
  recipientId : Option String := none
  recipientName : Option String := none
  recipientEmail : Option String := none

/-- Exact-match filter on a copied (optional) event field: absent filter
passes; present filter requires the stored value to be exactly that
string. -/
def matchStrOpt (fv : Option String) (field : Option Json) : Bool :=
  match fv with
  | none => true
  | some v =>
      match field with
      | some (Json.str s) => s == v
      | _ => false

/-- Partial, case-insensitive substring filter (sender-name and
recipient-name). -/
def matchNameOpt (fv : Option String) (field : Option Json) : Bool :=
  match fv with
  | none => true
  | some v =>
      match field with
      | some (Json.str s) => isSubstr (lowerData v) (lowerData s)
      | _ => false

/-- Exact-match filter on a boolean classification flag. -/
def matchBoolOpt (fv : Option Bool) (b : Bool) : Bool :=
  match fv with
  | none => true
  | some v => b == v

/-- Exact-match filter on the stored method string. -/
def matchMethod (fv : Option String) (m : String) : Bool :=
  match fv with
  | none => true
  | some v => m == v

/-- Serialization of a populated optional field for the free-text scan;
absent fields contribute nothing. -/
def optDump : Option Json → List Char
  | none => []
  | some j => ' ' :: j.serializeData

/-- Modelled from the spec: the serialized textual representation of the
entire event used by the free-text filter — method, url, every populated
classification/identity field, and a string dump of the raw body. -/
def LoggedEvent.textDump (e : LoggedEvent) : List Char :=
  e.method.data ++ ' ' :: e.requestUrl.data
  ++ optDump e.emailSubject ++ optDump e.emailBody ++ optDump e.emailFrom
  ++ optDump e.emailTo ++ optDump e.emailType
  ++ optDump e.source ++ optDump e.scraperStatus ++ optDump e.articleUrl
  ++ optDump e.scrapedAt ++ optDump e.contentType
  ++ optDump e.senderName ++ optDump e.senderId ++ optDump e.sessionId
  ++ optDump e.deviceInfo ++ optDump e.recipientName ++ optDump e.recipientId
  ++ optDump e.recipientEmail
  ++ ' ' :: e.rawBody.serializeData

/-- Free-text filter: case-insensitive substring match against the
serialized representation of the entire event. -/
def matchSearch (fv : Option String) (e : LoggedEvent) : Bool :=
  match fv with
  | none => true
  | some q => isSubstr (lowerData q) (e.textDump.map Char.toLower)

/-- Modelled from the spec: an event passes a filter iff it passes every
present field filter (pure AND; absent filters impose no constraint). -/
def Filter.matches (f : Filter) (e : LoggedEvent) : Bool :=
  matchMethod f.method e.method &&
  matchSearch f.search e &&
  matchStrOpt f.emailType e.emailType &&
  matchBoolOpt f.isEmail e.isEmailShaped &&
  matchBoolOpt f.isScraper e.isScraperShaped &&
  matchStrOpt f.source e.source &&
  matchStrOpt f.status e.scraperStatus &&
  matchStrOpt f.contentType e.contentType &&
  matchStrOpt f.senderId e.senderId &&
  matchStrOpt f.sessionId e.sessionId &&
  matchNameOpt f.senderName e.senderName &&
  matchStrOpt f.recipientId e.recipientId &&
  matchNameOpt f.recipientName e.recipientName &&
  matchStrOpt f.recipientEmail e.recipientEmail

/-- The `GET` response: the full filtered result, newest-first, with its
count. -/
structure QueryResponse where
  requests : List LoggedEvent
  total : Nat

/-- Modelled from the spec: `query` — keep the events passing the filter,
in the store's newest-first order, and report the count. -/
def query (store : List LoggedEvent) (f : Filter) : QueryResponse :=
  let l := store.filter (fun e => f.matches e)
  { requests := l, total := l.length }

/-- Modelled from the spec: `clear` — empty the collection, return the
number of events removed. -/
def clear (store : List LoggedEvent) : List LoggedEvent × Nat :=
  ([], store.length)

/-- The body of the 201 response of the append endpoint:
`{success, id, timestamp, isEmail, isScraper}`. -/
structure PostResponse where
  status : Nat
  success : Bool
  id : String
  timestamp : String
  isEmail : Bool
  isScraper : Bool

/-- Modelled from the spec (§6): the `POST` adapter — a missing or
undecodable body is stored as a null raw body; the response carries the
stored event's id, timestamp and classification flags with status 201. -/
def POST (store : List LoggedEvent) (decoded : Option Json) (method : String)
    (headers : List (String × String)) (clientAddress requestUrl : String)
    (freshId receivedAt : String) : List LoggedEvent × PostResponse :=
  let i : AppendInput :=
    { rawBody := decoded.getD Json.null
      method := method
      headers := headers
      clientAddress := clientAddress
      requestUrl := requestUrl
      freshId := freshId
      receivedAt := receivedAt }
  let (store', e) := append store i
  (store',
   { status := 201, success := true, id := e.id, timestamp := e.receivedAt,
     isEmail := e.isEmailShaped, isScraper := e.isScraperShaped })

/-- Modelled from the spec: `PUT` is an alias of the append path. -/
def PUT := POST

/-- Modelled from the spec: `PATCH` is an alias of the append path. -/
def PATCH := POST

end StoreSpec

/-! ### Concrete sample traffic used by the closed statements -/

namespace RouteSrc

/-- Sample submission A. -/
def rqA : NextRequest :=
  { method := "POST", url := "http://host/api/log?tag=a", headers := [],
    jsonBody := some (Json.str "payload-a") }

/-- Sample submission B. -/
def rqB : NextRequest :=
  { method := "POST", url := "http://host/api/log?tag=b", headers := [],
    jsonBody := some (Json.str "payload-b") }

/-- Sample submission C. -/
def rqC : NextRequest :=
  { method := "POST", url := "http://host/api/log?tag=c", headers := [],
    jsonBody := some (Json.str "payload-c") }

/-- The log after posting A, then B, then C. -/
def log3 : List LoggedRequest :=
  (POST (POST (POST [] rqA "idA" "tsA").1 rqB "idB" "tsB").1 rqC "idC" "tsC").1

/-- The stored records of the three sample submissions. -/
def evA : LoggedRequest := mkLoggedRequest rqA "idA" "tsA"

/-- Stored record of sample submission B. -/
def evB : LoggedRequest := mkLoggedRequest rqB "idB" "tsB"

/-- Stored record of sample submission C. -/
def evC : LoggedRequest := mkLoggedRequest rqC "idC" "tsC"

/-- A submission whose only occurrence of `xsecret` is inside a header
value. -/
def rqH : NextRequest :=
  { method := "POST", url := "http://host/api/log",
    headers := [("x-debug-token", "XSECRET-42")], jsonBody := none }

/-- Stored record of `rqH`. -/
def evH : LoggedRequest := mkLoggedRequest rqH "id7" "ts7"

/-- The log holding only `evH`. -/
def logH : List LoggedRequest := (POST [] rqH "id7" "ts7").1

/-- A `PUT` submission (stored method `"PUT"`). -/
def rqP : NextRequest :=
  { method := "PUT", url := "http://host/api/log", headers := [],
    jsonBody := some (Json.str "payload-p") }

/-- Stored record of `rqP`. -/
def evP : LoggedRequest := mkLoggedRequest rqP "idP" "tsP"

/-- The log holding only `evP`. -/
def logP : List LoggedRequest := (PUT [] rqP "idP" "tsP").1

/-- A submission whose forwarded address contains a backslash, a
character `JSON.stringify` escapes. -/
def rqX : NextRequest :=
  { method := "POST", url := "http://host/api/log",
    headers := [("x-forwarded-for", "a\\b")], jsonBody := none }

/-- Stored record of `rqX`; its `ip` field is the string `a\b`. -/
def evX : LoggedRequest := mkLoggedRequest rqX "idX" "tsX"

/-- The log holding only `evX`. -/
def logX : List LoggedRequest := (POST [] rqX "idX" "tsX").1

end RouteSrc

namespace StoreSpec

/-- A body carrying both an email-shaped key and a scraper-shaped key. -/
def bodyBoth : Json :=
  Json.obj [("emailSubject", Json.null), ("source", Json.str "NYT")]

/-- An append input carrying `bodyBoth`. -/
def iBoth : AppendInput := { rawBody := bodyBoth }

/-- An append input whose body failed to decode (null raw body). -/
def iNull : AppendInput := {}

end StoreSpec

/-! ### Helper lemmas -/

theorem isPre_iff (nd hay : List Char) : isPre nd hay = true ↔ ∃ t, nd ++ t = hay := by
  induction nd generalizing hay with
  | nil => simp [isPre]
  | cons a as ih =>
    cases hay with
    | nil => simp [isPre]
    | cons b bs =>
      simp only [isPre, Bool.and_eq_true, beq_iff_eq, ih bs, List.cons_append,
        List.cons.injEq]
      constructor
      · rintro ⟨rfl, t, rfl⟩; exact ⟨t, rfl, rfl⟩
      · rintro ⟨t, rfl, rfl⟩; exact ⟨rfl, t, rfl⟩

theorem isSubstr_iff (nd hay : List Char) : isSubstr nd hay = true ↔ SubStr nd hay := by
  induction hay with
  | nil =>
    simp only [isSubstr, List.isEmpty_iff, SubStr]
    constructor
    · rintro rfl; exact ⟨[], [], rfl⟩
    · rintro ⟨u, v, h⟩
      rcases List.append_eq_nil.mp h with ⟨h1, -⟩
      exact (List.append_eq_nil.mp h1).2
  | cons b bs ih =>
    rw [isSubstr, Bool.or_eq_true, ih, isPre_iff]
    constructor
    · rintro (⟨t, h⟩ | ⟨u, v, rfl⟩)
      · exact ⟨[], t, by simpa using h⟩
      · exact ⟨b :: u, v, rfl⟩
    · rintro ⟨u, v, h⟩
      cases u with
      | nil => exact Or.inl ⟨v, by simpa using h⟩
      | cons x us =>
        simp only [List.cons_append] at h
        injection h with h1 h2
        exact Or.inr ⟨us, v, h2⟩

theorem subStr_appendL {nd hay : List Char} (x : List Char) (h : SubStr nd hay) :
    SubStr nd (x ++ hay) := by
  obtain ⟨u, v, rfl⟩ := h
  exact ⟨x ++ u, v, by simp [List.append_assoc]⟩

theorem subStr_appendR {nd hay : List Char} (y : List Char) (h : SubStr nd hay) :
    SubStr nd (hay ++ y) := by
  obtain ⟨u, v, rfl⟩ := h
  exact ⟨u, v ++ y, by simp [List.append_assoc]⟩

theorem subStr_map {nd hay : List Char} (f : Char → Char) (h : SubStr nd hay) :
    SubStr (nd.map f) (hay.map f) := by
  obtain ⟨u, v, rfl⟩ := h
  exact ⟨u.map f, v.map f, by simp [List.map_append]⟩

theorem subStr_trans {a b c : List Char} (h1 : SubStr a b) (h2 : SubStr b c) :
    SubStr a c := by
  obtain ⟨u1, v1, rfl⟩ := h1
  obtain ⟨u2, v2, rfl⟩ := h2
  exact ⟨u2 ++ u1, v1 ++ v2, by simp [List.append_assoc]⟩

theorem escapeChar_fix (c : Char) (h : escapeChar (Char.toLower c) = [Char.toLower c]) :
    escapeChar c = [c] := by
  by_cases h1 : c = '"'
  · subst h1
    rw [show Char.toLower '"' = '"' from by decide] at h
    exact absurd h (by decide)
  by_cases h2 : c = '\\'
  · subst h2
    rw [show Char.toLower '\\' = '\\' from by decide] at h
    exact absurd h (by decide)
  by_cases h3 : c = '\n'
  · subst h3
    rw [show Char.toLower '\n' = '\n' from by decide] at h
    exact absurd h (by decide)
  by_cases h4 : c = '\r'
  · subst h4
    rw [show Char.toLower '\r' = '\r' from by decide] at h
    exact absurd h (by decide)
  by_cases h5 : c = '\t'
  · subst h5
    rw [show Char.toLower '\t' = '\t' from by decide] at h
    exact absurd h (by decide)
  simp [escapeChar, h1, h2, h3, h4, h5]

theorem escapeData_eq_self {cs : List Char} (h : ∀ c ∈ cs, escapeChar c = [c]) :
    escapeData cs = cs := by
  induction cs with
  | nil => rfl
  | cons c cs ih =>
    rw [escapeData, List.flatMap_cons, ← escapeData, h c (List.mem_cons_self c cs),
      ih fun d hd => h d (List.mem_cons_of_mem _ hd), List.singleton_append]

theorem subStr_escape {nd : List Char} {cs : List Char}
    (hfree : ∀ c ∈ nd, escapeChar c = [c])
    (h : SubStr nd (cs.map Char.toLower)) :
    SubStr nd ((escapeData cs).map Char.toLower) := by
  obtain ⟨u, v, huv⟩ := h
  have h1 : cs.map Char.toLower = u ++ (nd ++ v) := by
    rw [← huv, List.append_assoc]
  obtain ⟨l₁, l₂₃, rfl, hu, h23⟩ := List.map_eq_append_iff.mp h1
  obtain ⟨l₂, l₃, rfl, hnd, hv⟩ := List.map_eq_append_iff.mp h23
  have hl2 : escapeData l₂ = l₂ := by
    apply escapeData_eq_self
    intro c hc
    exact escapeChar_fix c (hfree _ (hnd ▸ List.mem_map_of_mem _ hc))
  refine ⟨(escapeData l₁).map Char.toLower, (escapeData l₃).map Char.toLower, ?_⟩
  simp only [escapeData] at hl2 ⊢
  simp only [List.flatMap_append, List.map_append, hl2, hnd, List.append_assoc]

theorem take_append_take {α : Type} (a b : List α) (n : Nat) :
    (a ++ b.take n).take n = (a ++ b).take n := by
  rw [List.take_append_eq_append_take, List.take_take,
    List.take_append_eq_append_take]
  congr 1
  congr 1
  exact min_eq_left (Nat.sub_le n a.length)

theorem hasKey_iff (j : Json) (k : String) :
    j.hasKey k = true ↔ (j.isObj = true ∧ k ∈ j.keys) := by
  cases j with
  | obj fs =>
    simp only [Json.hasKey, Json.isObj, Json.keys, List.any_eq_true,
      beq_iff_eq, List.mem_map, true_and]
  | null => simp [Json.hasKey, Json.isObj]
  | bool b => simp [Json.hasKey, Json.isObj]
  | num n => simp [Json.hasKey, Json.isObj]
  | str s => simp [Json.hasKey, Json.isObj]
  | arr xs => simp [Json.hasKey, Json.isObj]

theorem subStr_refl (a : List Char) : SubStr a a := ⟨[], [], by simp⟩

theorem subStr_quote (cs : List Char) : SubStr (escapeData cs) (quoteData cs) := by
  unfold quoteData
  apply subStr_appendR
  apply subStr_appendL
  exact subStr_refl _

theorem subStr_ser_id (r : RouteSrc.LoggedRequest) :
    SubStr (escapeData r.id.data) r.serializeData := by
  unfold RouteSrc.LoggedRequest.serializeData RouteSrc.fieldChunk
  apply subStr_appendR
  apply subStr_appendR
  apply subStr_appendR
  apply subStr_appendR
  apply subStr_appendR
  apply subStr_appendR
  apply subStr_appendR
  apply subStr_appendR
  apply subStr_appendR
  apply subStr_appendR
  apply subStr_appendR
  apply subStr_appendR
  apply subStr_appendR
  apply subStr_appendL
  apply subStr_appendL
  exact subStr_quote _

theorem subStr_ser_timestamp (r : RouteSrc.LoggedRequest) :
    SubStr (escapeData r.timestamp.data) r.serializeData := by
  unfold RouteSrc.LoggedRequest.serializeData RouteSrc.fieldChunk
  apply subStr_appendR
  apply subStr_appendR
  apply subStr_appendR
  apply subStr_appendR
  apply subStr_appendR
  apply subStr_appendL
  apply subStr_appendL
  exact subStr_quote _

theorem subStr_ser_ip (r : RouteSrc.LoggedRequest) :
    SubStr (escapeData r.ip.data) r.serializeData := by
  unfold RouteSrc.LoggedRequest.serializeData RouteSrc.fieldChunk
  apply subStr_appendR
  apply subStr_appendR
  apply subStr_appendR
  apply subStr_appendL
  apply subStr_appendL
  exact subStr_quote _

theorem length_appendStep (s : List StoreSpec.LoggedEvent) (i : StoreSpec.AppendInput) :
    ((StoreSpec.append s i).1).length ≤ StoreSpec.CAPACITY :=
  List.length_take_le StoreSpec.CAPACITY _

theorem appendAll_eq (is : List StoreSpec.AppendInput) (s : List StoreSpec.LoggedEvent)
    (hs : s.length ≤ StoreSpec.CAPACITY) :
    StoreSpec.appendAll s is =
      ((is.reverse.map StoreSpec.mkEvent) ++ s).take StoreSpec.CAPACITY := by
  induction is generalizing s with
  | nil => simp [StoreSpec.appendAll, List.take_of_length_le hs]
  | cons i is ih =>
    show StoreSpec.appendAll ((StoreSpec.mkEvent i :: s).take StoreSpec.CAPACITY) is = _
    rw [ih _ (List.length_take_le StoreSpec.CAPACITY _)]
    rw [take_append_take]
    congr 1
    simp [List.map_append, List.append_assoc]

theorem head_take_cap (e : StoreSpec.LoggedEvent) (s : List StoreSpec.LoggedEvent) :
    ((e :: s).take StoreSpec.CAPACITY).head? = some e := by
  rw [show StoreSpec.CAPACITY = 299 + 1 from rfl, List.take_succ_cons]
  rfl

/-! ### Claim theorems -/

/-- C1: for every append, the two classification flags are computed at
insertion from key presence in the raw body and stored on the inserted
event: `isEmailShaped` is true iff the raw body is a structured object
and at least one email key is present (whatever its value), likewise
`isScraperShaped` with the scraper keys; a body containing both an email
key and a scraper key yields an event with both flags true. -/
theorem C1_classification_flags (store : List StoreSpec.LoggedEvent)
    (i : StoreSpec.AppendInput) :
    ((StoreSpec.append store i).1.head? = some (StoreSpec.append store i).2) ∧
    ((StoreSpec.append store i).2.isEmailShaped = true ↔
      (i.rawBody.isObj = true ∧ ∃ k ∈ StoreSpec.emailKeys, k ∈ i.rawBody.keys)) ∧
    ((StoreSpec.append store i).2.isScraperShaped = true ↔
      (i.rawBody.isObj = true ∧ ∃ k ∈ StoreSpec.scraperKeys, k ∈ i.rawBody.keys)) ∧
    (∀ k₁ ∈ StoreSpec.emailKeys, ∀ k₂ ∈ StoreSpec.scraperKeys,
      k₁ ∈ i.rawBody.keys → k₂ ∈ i.rawBody.keys →
      (StoreSpec.append store i).2.isEmailShaped = true ∧
      (StoreSpec.append store i).2.isScraperShaped = true) := by
  refine ⟨head_take_cap _ _, ?_, ?_, ?_⟩
  · show StoreSpec.isEmailShaped i.rawBody = true ↔ _
    simp only [StoreSpec.isEmailShaped, List.any_eq_true, hasKey_iff]
    constructor
    · rintro ⟨k, hk, hobj, hkey⟩; exact ⟨hobj, k, hk, hkey⟩
    · rintro ⟨hobj, k, hk, hkey⟩; exact ⟨k, hk, hobj, hkey⟩
  · show StoreSpec.isScraperShaped i.rawBody = true ↔ _
    simp only [StoreSpec.isScraperShaped, List.any_eq_true, hasKey_iff]
    constructor
    · rintro ⟨k, hk, hobj, hkey⟩; exact ⟨hobj, k, hk, hkey⟩
    · rintro ⟨hobj, k, hk, hkey⟩; exact ⟨k, hk, hobj, hkey⟩
  · intro k₁ h₁ k₂ h₂ hk₁ hk₂
    have hobj : i.rawBody.isObj = true := by
      cases hb : i.rawBody <;> simp [Json.keys, hb, Json.isObj] at hk₁ ⊢
    constructor
    · show StoreSpec.isEmailShaped i.rawBody = true
      simp only [StoreSpec.isEmailShaped, List.any_eq_true, hasKey_iff]
      exact ⟨k₁, h₁, hobj, hk₁⟩
    · show StoreSpec.isScraperShaped i.rawBody = true
      simp only [StoreSpec.isScraperShaped, List.any_eq_true, hasKey_iff]
      exact ⟨k₂, h₂, hobj, hk₂⟩

/-- C1 witness: appending `{emailSubject: null, source: "NYT"}` to the
empty store yields an event with both flags true. -/
theorem C1_witness :
    (StoreSpec.append [] StoreSpec.iBoth).2.isEmailShaped = true ∧
    (StoreSpec.append [] StoreSpec.iBoth).2.isScraperShaped = true :=
  (C1_classification_flags [] StoreSpec.iBoth).2.2.2
    "emailSubject" (by decide) "source" (by decide) (by decide) (by decide)

/-- C2: the store never exceeds `CAPACITY = 300` events along any append
sequence, and after more than 300 appends it holds exactly the 300 most
recently appended events, newest-first, the oldest dropped from the
tail. -/
theorem C2_capacity_invariant (is : List StoreSpec.AppendInput)
    (h : is.length > 300) :
    StoreSpec.CAPACITY = 300 ∧
    StoreSpec.appendAll [] is =
      (is.reverse.map StoreSpec.mkEvent).take StoreSpec.CAPACITY ∧
    (StoreSpec.appendAll [] is).length = 300 ∧
    (∀ p, p <+: is → (StoreSpec.appendAll [] p).length ≤ 300) := by
  have hmain := appendAll_eq is [] (by simp)
  refine ⟨rfl, by simpa using hmain, ?_, ?_⟩
  · rw [hmain]
    simp only [List.append_nil, List.length_take, List.length_map,
      List.length_reverse, StoreSpec.CAPACITY]
    omega
  · intro p _
    rw [appendAll_eq p [] (by simp)]
    exact List.length_take_le _ _

set_option maxRecDepth 4000 in
/-- C2 witness: 301 identical appends leave exactly 300 events. -/
theorem C2_witness :
    (List.replicate 301 StoreSpec.iNull).length > 300 ∧
    (StoreSpec.appendAll [] (List.replicate 301 StoreSpec.iNull)).length = 300 :=
  ⟨by simp, (C2_capacity_invariant _ (by simp)).2.2.1⟩

/-- C3: each of the fourteen recognized query parameters imposes its
corresponding filter, all present filters are ANDed, absent filters
impose no constraint (the empty filter returns the whole store), and the
response's `total` is the size of the full filtered result. -/
theorem C3_query_filter_semantics (store : List StoreSpec.LoggedEvent)
    (f : StoreSpec.Filter) (e : StoreSpec.LoggedEvent) :
    (e ∈ (StoreSpec.query store f).requests ↔
      e ∈ store ∧
      StoreSpec.matchMethod f.method e.method = true ∧
      StoreSpec.matchSearch f.search e = true ∧
      StoreSpec.matchStrOpt f.emailType e.emailType = true ∧
      StoreSpec.matchBoolOpt f.isEmail e.isEmailShaped = true ∧
      StoreSpec.matchBoolOpt f.isScraper e.isScraperShaped = true ∧
      StoreSpec.matchStrOpt f.source e.source = true ∧
      StoreSpec.matchStrOpt f.status e.scraperStatus = true ∧
      StoreSpec.matchStrOpt f.contentType e.contentType = true ∧
      StoreSpec.matchStrOpt f.senderId e.senderId = true ∧
      StoreSpec.matchStrOpt f.sessionId e.sessionId = true ∧
      StoreSpec.matchNameOpt f.senderName e.senderName = true ∧
      StoreSpec.matchStrOpt f.recipientId e.recipientId = true ∧
      StoreSpec.matchNameOpt f.recipientName e.recipientName = true ∧
      StoreSpec.matchStrOpt f.recipientEmail e.recipientEmail = true) ∧
    ((StoreSpec.query store ({} : StoreSpec.Filter)).requests = store) ∧
    ((StoreSpec.query store f).total = (StoreSpec.query store f).requests.length) := by
  refine ⟨?_, ?_, rfl⟩
  · show e ∈ store.filter _ ↔ _
    rw [List.mem_filter]
    simp only [StoreSpec.Filter.matches, Bool.and_eq_true, and_assoc]
  · exact List.filter_eq_self.mpr fun a _ => rfl

/-- C4: every submission through the append path (POST, with PUT and
PATCH as aliases), with any decoded or undecodable body, is answered with
status 201 and `{success: true, id, timestamp, isEmail, isScraper}` taken
from the stored event, which sits at the head of the store. -/
theorem C4_post_response (store : List StoreSpec.LoggedEvent)
    (decoded : Option Json) (method : String) (hs : List (String × String))
    (addr url fid ts : String) :
    (∃ e, (StoreSpec.POST store decoded method hs addr url fid ts).1.head? = some e ∧
      (StoreSpec.POST store decoded method hs addr url fid ts).2 =
        { status := 201, success := true, id := e.id, timestamp := e.receivedAt,
          isEmail := e.isEmailShaped, isScraper := e.isScraperShaped }) ∧
    StoreSpec.PUT = StoreSpec.POST ∧ StoreSpec.PATCH = StoreSpec.POST := by
  refine ⟨⟨_, head_take_cap _ _, rfl⟩, rfl, rfl⟩

/-- C5: append is total — any body, including an undecodable one stored
as a null raw body, produces an event at the head of the store; a null
raw body fails both classification predicates; and the store grows by one
entry (capped at `CAPACITY`). -/
theorem C5_append_never_rejects (store : List StoreSpec.LoggedEvent)
    (i : StoreSpec.AppendInput) :
    ((StoreSpec.append store i).1.head? = some (StoreSpec.append store i).2) ∧
    ((StoreSpec.append store i).1.length =
      min (store.length + 1) StoreSpec.CAPACITY) ∧
    (store.length < StoreSpec.CAPACITY →
      (StoreSpec.append store i).1.length = store.length + 1) ∧
    (i.rawBody = Json.null →
      (StoreSpec.append store i).2.rawBody = Json.null ∧
      (StoreSpec.append store i).2.isEmailShaped = false ∧
      (StoreSpec.append store i).2.isScraperShaped = false) := by
  refine ⟨head_take_cap _ _, ?_, ?_, ?_⟩
  · show ((StoreSpec.mkEvent i :: store).take StoreSpec.CAPACITY).length = _
    rw [List.length_take, List.length_cons]
    exact min_comm _ _
  · intro hlt
    show ((StoreSpec.mkEvent i :: store).take StoreSpec.CAPACITY).length = _
    rw [List.length_take, List.length_cons]
    omega
  · intro hb
    refine ⟨hb, ?_, ?_⟩
    · show StoreSpec.isEmailShaped i.rawBody = false
      rw [hb]; decide
    · show StoreSpec.isScraperShaped i.rawBody = false
      rw [hb]; decide

/-- C5 witness: appending an undecodable body to the empty store stores
one event with a null raw body and both flags false. -/
theorem C5_witness :
    StoreSpec.iNull.rawBody = Json.null ∧
    ([] : List StoreSpec.LoggedEvent).length < StoreSpec.CAPACITY ∧
    (StoreSpec.append [] StoreSpec.iNull).1.length =
      ([] : List StoreSpec.LoggedEvent).length + 1 ∧
    (StoreSpec.append [] StoreSpec.iNull).2.isEmailShaped = false ∧
    (StoreSpec.append [] StoreSpec.iNull).2.isScraperShaped = false :=
  ⟨rfl, by decide,
   (C5_append_never_rejects [] StoreSpec.iNull).2.2.1 (by decide),
   ((C5_append_never_rejects [] StoreSpec.iNull).2.2.2 rfl).2.1,
   ((C5_append_never_rejects [] StoreSpec.iNull).2.2.2 rfl).2.2⟩

/-- C6: queries return the store in its newest-first order — after
appending A, B, C in that order, the unfiltered query returns C, B, A —
and any filter combination yields a subsequence of the unfiltered result
(filtering narrows but never reorders). -/
theorem C6_ordering_stability :
    (∀ (log : List RouteSrc.LoggedRequest) (mf sq : Option String),
      (RouteSrc.GET log none none).requests = log ∧
      List.Sublist ((RouteSrc.GET log mf sq).requests)
        ((RouteSrc.GET log none none).requests)) ∧
    (RouteSrc.GET RouteSrc.log3 none none).requests =
      [RouteSrc.evC, RouteSrc.evB, RouteSrc.evA] := by
  refine ⟨fun log mf sq => ⟨rfl, ?_⟩, rfl⟩
  show List.Sublist
    (RouteSrc.searchFilterStep sq (RouteSrc.methodFilterStep mf log)) log
  have h1 : ∀ l : List RouteSrc.LoggedRequest,
      List.Sublist (RouteSrc.methodFilterStep mf l) l := by
    intro l
    cases mf with
    | none => exact List.Sublist.refl _
    | some f =>
      rw [show RouteSrc.methodFilterStep (some f) l =
        if f = "" then l else l.filter (fun r => r.method == jsToUpper f) from rfl]
      by_cases hf : f = ""
      · rw [if_pos hf]
      · rw [if_neg hf]; exact List.filter_sublist _
  have h2 : ∀ l : List RouteSrc.LoggedRequest,
      List.Sublist (RouteSrc.searchFilterStep sq l) l := by
    intro l
    cases sq with
    | none => exact List.Sublist.refl _
    | some q =>
      rw [show RouteSrc.searchFilterStep (some q) l =
        if q = "" then l
        else l.filter (fun r =>
          isSubstr (lowerData q) (r.serializeData.map Char.toLower)) from rfl]
      by_cases hq : q = ""
      · rw [if_pos hq]
      · rw [if_neg hq]; exact List.filter_sublist _
  exact (h2 _).trans (h1 log)

/-- C7: the free-text filter matches the search string case-insensitively
against the full serialized record of each event, and that record
includes the event's headers: `evH` carries `xsecret` only inside a
header value, yet `search=xsecret` returns it. -/
theorem C7_search_serialized_record :
    (∀ (log : List RouteSrc.LoggedRequest) (q : String), q ≠ "" →
      ∀ e, (e ∈ (RouteSrc.GET log none (some q)).requests ↔
        e ∈ log ∧
        isSubstr (lowerData q) (e.serializeData.map Char.toLower) = true)) ∧
    ((RouteSrc.GET RouteSrc.logH none (some "xsecret")).requests =
      [RouteSrc.evH]) ∧
    (RouteSrc.evH.headers = [("x-debug-token", "XSECRET-42")] ∧
     isSubstr (lowerData "xsecret") (lowerData "XSECRET-42") = true) ∧
    (isSubstr (lowerData "xsecret") (lowerData RouteSrc.evH.id) = false ∧
     isSubstr (lowerData "xsecret") (lowerData RouteSrc.evH.method) = false ∧
     isSubstr (lowerData "xsecret") (lowerData RouteSrc.evH.url) = false ∧
     isSubstr (lowerData "xsecret") (lowerData RouteSrc.evH.timestamp) = false ∧
     isSubstr (lowerData "xsecret") (lowerData RouteSrc.evH.ip) = false ∧
     isSubstr (lowerData "xsecret")
       ((Json.serializeData RouteSrc.evH.body).map Char.toLower) = false) := by
  refine ⟨?_, rfl, ⟨rfl, by decide⟩, by decide, by decide, by decide,
    by decide, by decide, by decide⟩
  intro log q hq e
  simp only [RouteSrc.GET, RouteSrc.methodFilterStep, RouteSrc.searchFilterStep,
    if_neg hq, List.mem_filter]

/-- C7 witness: the universal part at the concrete header-carrying
event. -/
theorem C7_witness :
    "xsecret" ≠ "" ∧
    (RouteSrc.evH ∈ (RouteSrc.GET RouteSrc.logH none (some "xsecret")).requests ↔
      RouteSrc.evH ∈ RouteSrc.logH ∧
      isSubstr (lowerData "xsecret")
        (RouteSrc.evH.serializeData.map Char.toLower) = true) :=
  ⟨by decide,
   C7_search_serialized_record.1 RouteSrc.logH "xsecret" (by decide) RouteSrc.evH⟩

/-- C8: clear empties the store and reports the number of events removed;
on an empty store it reports 0 and leaves it empty, so a second clear is
a no-op (idempotence). -/
theorem C8_clear_idempotent (log : List RouteSrc.LoggedRequest) :
    (RouteSrc.DELETE log).1 = [] ∧
    (RouteSrc.DELETE log).2.success = true ∧
    (RouteSrc.DELETE log).2.cleared = log.length ∧
    (RouteSrc.DELETE ([] : List RouteSrc.LoggedRequest)).2.cleared = 0 ∧
    (RouteSrc.DELETE (RouteSrc.DELETE log).1).2.cleared = 0 ∧
    (RouteSrc.DELETE (RouteSrc.DELETE log).1).1 = [] :=
  ⟨rfl, rfl, rfl, rfl, rfl, rfl⟩

/-- C9 counterexample: the stored `PUT` event is returned for the filter
value `put`, although its stored method `PUT` is not equal to `put` — the
method filter is not exact on the given value. -/
theorem C9_counterexample :
    (RouteSrc.GET RouteSrc.logP (some "put") none).requests = [RouteSrc.evP] ∧
    RouteSrc.evP.method ≠ "put" :=
  ⟨rfl, by decide⟩

/-- C9 amended: the method filter matches an event iff its stored method
equals the uppercased filter value
(`req.method === methodFilter.toUpperCase()`). -/
theorem C9_method_filter_uppercases (log : List RouteSrc.LoggedRequest)
    (f : String) (e : RouteSrc.LoggedRequest) (hf : f ≠ "") :
    e ∈ (RouteSrc.GET log (some f) none).requests ↔
      e ∈ log ∧ e.method = jsToUpper f := by
  simp only [RouteSrc.GET, RouteSrc.searchFilterStep, RouteSrc.methodFilterStep,
    if_neg hf, List.mem_filter, beq_iff_eq]

/-- C9 witness: the amended filter semantics at the concrete `PUT`
event. -/
theorem C9_witness :
    "put" ≠ "" ∧
    (RouteSrc.evP ∈ (RouteSrc.GET RouteSrc.logP (some "put") none).requests ↔
      RouteSrc.evP ∈ RouteSrc.logP ∧ RouteSrc.evP.method = jsToUpper "put") :=
  ⟨by decide,
   C9_method_filter_uppercases RouteSrc.logP "put" RouteSrc.evP (by decide)⟩

/-- C10 counterexample: `evX` is stored with client address `a\b`, the
search string `a\b` occurs in that address, yet the query returns nothing
— `JSON.stringify` escapes the backslash, so the raw occurrence is absent
from the serialized dump. -/
theorem C10_counterexample :
    RouteSrc.logX = [RouteSrc.evX] ∧
    isSubstr (lowerData "a\\b") (lowerData RouteSrc.evX.ip) = true ∧
    (RouteSrc.GET RouteSrc.logX none (some "a\\b")).requests = [] :=
  ⟨rfl, by decide, rfl⟩

/-- C10 amended: for every stored event and every non-empty search string
none of whose (lowercased) characters needs JSON escaping, an occurrence
of the search string, case-insensitively, in the event's id, timestamp or
client IP string makes the query with that search string return the
event. -/
theorem C10_search_covers_metadata (log : List RouteSrc.LoggedRequest)
    (q : String) (e : RouteSrc.LoggedRequest) (he : e ∈ log) (hq : q ≠ "")
    (hfree : ∀ c ∈ lowerData q, escapeChar c = [c])
    (hocc : SubStr (lowerData q) (lowerData e.id) ∨
            SubStr (lowerData q) (lowerData e.timestamp) ∨
            SubStr (lowerData q) (lowerData e.ip)) :
    e ∈ (RouteSrc.GET log none (some q)).requests := by
  simp only [RouteSrc.GET, RouteSrc.methodFilterStep, RouteSrc.searchFilterStep,
    if_neg hq, List.mem_filter]
  refine ⟨he, ?_⟩
  rw [isSubstr_iff]
  simp only [lowerData] at hocc
  rcases hocc with h | h | h
  · exact subStr_trans (subStr_escape hfree h)
      (subStr_map Char.toLower (subStr_ser_id e))
  · exact subStr_trans (subStr_escape hfree h)
      (subStr_map Char.toLower (subStr_ser_timestamp e))
  · exact subStr_trans (subStr_escape hfree h)
      (subStr_map Char.toLower (subStr_ser_ip e))

/-- C10 witness: searching a fragment of the stored event's own id
returns it. -/
theorem C10_witness :
    (RouteSrc.evX ∈ RouteSrc.logX ∧ "idx" ≠ "" ∧
      (∀ c ∈ lowerData "idx", escapeChar c = [c]) ∧
      SubStr (lowerData "idx") (lowerData RouteSrc.evX.id)) ∧
    RouteSrc.evX ∈ (RouteSrc.GET RouteSrc.logX none (some "idx")).requests := by
  have hmem : RouteSrc.evX ∈ RouteSrc.logX := by
    rw [show RouteSrc.logX = [RouteSrc.evX] from rfl]
    exact List.mem_cons_self _ _
  have hocc : SubStr (lowerData "idx") (lowerData RouteSrc.evX.id) :=
    (isSubstr_iff _ _).mp (by decide)
  exact ⟨⟨hmem, by decide, by decide, hocc⟩,
    C10_search_covers_metadata RouteSrc.logX "idx" RouteSrc.evX hmem (by decide)
      (by decide) (Or.inl hocc)⟩

end RequestLogger
